import Mathlib

/-!
Verification of the parking-availability monitor against its specification.

The development shallowly embeds the relevant parts of the code base:

* `src/utils/date_converter.py` (ISO date ↔ aria-label conversion),
* `src/monitoring/parking_scraper_v3.py` (the classifier `scan_html_for_dates`,
  the color test `is_green`, the retry wrapper `check_multiple_dates`, the
  per-job notification step of `check_monitoring_jobs`, and the module-level
  driver pool `get_or_create_driver` / `cleanup_driver`),
* `src/config/database.py` (the store operations used by the engine), and
* `src/webapp/app.py` (the signed resume/stop links; the `itsdangerous`
  serializer is modelled symbolically: a token records its payload, its issue
  time and the salt it was signed under, and verification succeeds only for a
  matching salt within `max_age` — the standard symbolic reading of a MAC).

Machine integers do not occur (Python integers are unbounded), so all numbers
are `Nat`/`Int`.  Fallible code returns `Option`; a raised exception that a
caller catches is modelled by the catching caller's branches.
-/

namespace ParkingMonitor

/-! ## Characters, digits and decimal numerals -/

/-- The decimal digit character for `0 ≤ n ≤ 9` (callers pass `n % 10`). -/
def digitChar : Nat → Char
  | 0 => '0' | 1 => '1' | 2 => '2' | 3 => '3' | 4 => '4'
  | 5 => '5' | 6 => '6' | 7 => '7' | 8 => '8' | _ => '9'

/-- Numeric value of a decimal digit character (as used by Python `int`). -/
def digitVal (c : Char) : Nat := c.toNat - 48

/-- Decimal numeral of `n`, fuel-based so that it reduces definitionally.
This embeds Python's `str(int)` / f-string formatting of a non-negative int. -/
def natDigitsAux : Nat → Nat → List Char
  | 0, _ => []
  | fuel + 1, n =>
    if n < 10 then [digitChar n]
    else natDigitsAux fuel (n / 10) ++ [digitChar (n % 10)]

/-- Decimal numeral of `n` (no padding, no sign). -/
def natDigits (n : Nat) : List Char := natDigitsAux (n + 1) n

/-- Value of a digit string, the way Python `int` reads a matched group. -/
def digitsToNat (l : List Char) : Nat := l.foldl (fun a c => a * 10 + digitVal c) 0

/-- Zero-padded two-digit numeral, as produced by `strftime` `%m` / `%d`. -/
def pad2 (n : Nat) : List Char := if n < 10 then '0' :: natDigits n else natDigits n

/-- Boolean prefix test on character lists (decidable-equality based so that
it reduces definitionally on literal prefixes). -/
def isPre : List Char → List Char → Bool
  | [], _ => true
  | _ :: _, [] => false
  | a :: as, b :: bs => if a = b then isPre as bs else false

/-- Boolean infix (substring) test: does `needle` occur inside `hay`?
This embeds Python's `needle in hay` on strings. -/
def isInfixL (needle : List Char) : List Char → Bool
  | [] => needle.isEmpty
  | c :: t => isPre needle (c :: t) || isInfixL needle t

/-- Case-insensitive containment: `needle.lower() in hay.lower()`. -/
def containsLower (hay needle : String) : Bool :=
  isInfixL (needle.toList.map Char.toLower) (hay.toList.map Char.toLower)

/-- Python `" ".join(strings)`. -/
def joinSpace : List String → String
  | [] => ""
  | [s] => s
  | s :: rest => s ++ " " ++ joinSpace rest

/-- Split at the first comma, embedding `s.split(',', 1)`: returns the part
before the first `','` and the part after it, or `none` when no comma occurs
(in which case Python's `[1]` indexing would raise). -/
def breakAtComma : List Char → Option (List Char × List Char)
  | [] => none
  | c :: cs =>
    if c = ',' then some ([], cs)
    else (breakAtComma cs).map (fun p => (c :: p.1, p.2))

/-- Python `str.strip()`: drop whitespace from both ends. -/
def stripL (l : List Char) : List Char :=
  ((l.dropWhile Char.isWhitespace).reverse.dropWhile Char.isWhitespace).reverse

/-! ## Date converter (`src/utils/date_converter.py`)

`convert_to_aria_label` parses `YYYY-MM-DD` with `strptime('%Y-%m-%d')`
(CPython: `%Y` matches exactly four digits, `%m`/`%d` one or two), localizes
midnight in the configured zone — which never changes the calendar date — and
formats `f"{day_name}, {month_name} {day}, {year}"` where `day`/`year` are the
plain integers.  `convert_from_aria_label` drops everything up to the first
comma, strips, parses `'%B %d, %Y'` and re-formats with
`strftime('%Y-%m-%d')`. -/

/-- Proleptic-Gregorian leap-year test (`calendar.isleap`). -/
def isLeapYear (y : Nat) : Bool :=
  y % 4 == 0 && (!(y % 100 == 0) || y % 400 == 0)

/-- Length of a month, as validated by `datetime.date`. -/
def daysInMonth (y m : Nat) : Nat :=
  match m with
  | 2 => if isLeapYear y then 29 else 28
  | 4 => 30 | 6 => 30 | 9 => 30 | 11 => 30
  | _ => 31

/-- The dates `datetime.date` accepts (`MINYEAR = 1`, `MAXYEAR = 9999`). -/
def validDate (y m d : Nat) : Bool :=
  decide (1 ≤ y ∧ y ≤ 9999 ∧ 1 ≤ m ∧ m ≤ 12 ∧ 1 ≤ d ∧ d ≤ daysInMonth y m)

/-- Days in all years before year `y` (proleptic Gregorian, year 1 first). -/
def daysBeforeYear (y : Nat) : Nat :=
  (y - 1) * 365 + (y - 1) / 4 - (y - 1) / 100 + (y - 1) / 400

/-- Days in the months of year `y` strictly before month `m`. -/
def daysBeforeMonth (y m : Nat) : Nat :=
  (List.range (m - 1)).foldl (fun a i => a + daysInMonth y (i + 1)) 0

/-- Embeds `datetime.date.toordinal`: day count with `0001-01-01 ↦ 1`. -/
def toOrdinal (y m d : Nat) : Nat := daysBeforeYear y + daysBeforeMonth y m + d

/-- Embeds `datetime.date.weekday`: `0 = Monday`, …, `6 = Sunday`. -/
def pyWeekday (y m d : Nat) : Nat := (toOrdinal y m d + 6) % 7

/-- Full weekday name, as `strftime('%A')` renders it in the C locale. -/
def weekdayChars : Nat → List Char
  | 0 => "Monday".toList
  | 1 => "Tuesday".toList
  | 2 => "Wednesday".toList
  | 3 => "Thursday".toList
  | 4 => "Friday".toList
  | 5 => "Saturday".toList
  | _ => "Sunday".toList

/-- Full month name, as `strftime('%B')` renders it in the C locale. -/
def monthChars : Nat → List Char
  | 1 => "January".toList
  | 2 => "February".toList
  | 3 => "March".toList
  | 4 => "April".toList
  | 5 => "May".toList
  | 6 => "June".toList
  | 7 => "July".toList
  | 8 => "August".toList
  | 9 => "September".toList
  | 10 => "October".toList
  | 11 => "November".toList
  | 12 => "December".toList
  | _ => []

/-- The aria label `f"{day_name}, {month_name} {day}, {year}"`. -/
def ariaLabelChars (y m d : Nat) : List Char :=
  weekdayChars (pyWeekday y m d) ++ ", ".toList ++ monthChars m ++ " ".toList
    ++ natDigits d ++ ", ".toList ++ natDigits y

/-- String form of the aria label. -/
def encodeAria (y m d : Nat) : String := String.mk (ariaLabelChars y m d)

/-- Embeds `strptime(date_str, '%Y-%m-%d')`: `%Y` is exactly four digits, `%m` and
`%d` one or two digits, and the resulting triple must be a real date. -/
def strptimeIso (l : List Char) : Option (Nat × Nat × Nat) :=
  let yds := l.takeWhile Char.isDigit
  let r1 := l.dropWhile Char.isDigit
  if yds.length = 4 then
    match r1 with
    | '-' :: r2 =>
      let mds := r2.takeWhile Char.isDigit
      let r3 := r2.dropWhile Char.isDigit
      if 1 ≤ mds.length ∧ mds.length ≤ 2 then
        match r3 with
        | '-' :: r4 =>
          let dds := r4.takeWhile Char.isDigit
          let r5 := r4.dropWhile Char.isDigit
          if (1 ≤ dds.length ∧ dds.length ≤ 2) ∧ r5 = [] then
            let y := digitsToNat yds
            let m := digitsToNat mds
            let d := digitsToNat dds
            if validDate y m d then some (y, m, d) else none
          else none
        | _ => none
      else none
    | _ => none
  else none

/-- Embeds `convert_to_aria_label`: `none` models the raised `ValueError`. -/
def convert_to_aria_label (date_str : String) : Option String :=
  (strptimeIso date_str.toList).map (fun t => encodeAria t.1 t.2.1 t.2.2)

/-- Month-name recognizer for `strptime('%B …')`: try each full name as a
prefix (no English month name is a prefix of another, so the order of the
alternation is irrelevant) and consume it. -/
def lookupMonth : List (List Char × Nat) → List Char → Option (Nat × List Char)
  | [], _ => none
  | (nm, i) :: rest, l =>
    if isPre nm l then some (i, l.drop nm.length) else lookupMonth rest l

/-- The twelve month names with their numbers. -/
def monthTable : List (List Char × Nat) :=
  [("January".toList, 1), ("February".toList, 2), ("March".toList, 3),
   ("April".toList, 4), ("May".toList, 5), ("June".toList, 6),
   ("July".toList, 7), ("August".toList, 8), ("September".toList, 9),
   ("October".toList, 10), ("November".toList, 11), ("December".toList, 12)]

/-- Recognize a full month name at the front of `l`. -/
def parseMonth (l : List Char) : Option (Nat × List Char) := lookupMonth monthTable l

/-- The body of `convert_from_aria_label`: split at the first comma, strip the
remainder, and run `strptime('%B %d, %Y')` on it (`%d` one or two digits, a
whitespace run where the format shows a blank, `%Y` exactly four digits, and
the triple must form a real date). -/
def parseAriaChars (l : List Char) : Option (Nat × Nat × Nat) :=
  match breakAtComma l with
  | none => none
  | some (_, afterComma) =>
    let t := stripL afterComma
    match parseMonth t with
    | none => none
    | some (m, t1) =>
      match t1 with
      | [] => none
      | c :: t2 =>
        if c.isWhitespace then
          let t3 := t2.dropWhile Char.isWhitespace
          let dds := t3.takeWhile Char.isDigit
          let t4 := t3.dropWhile Char.isDigit
          if 1 ≤ dds.length ∧ dds.length ≤ 2 then
            match t4 with
            | ',' :: c2 :: t5 =>
              if c2.isWhitespace then
                let t6 := t5.dropWhile Char.isWhitespace
                let yds := t6.takeWhile Char.isDigit
                let t7 := t6.dropWhile Char.isDigit
                if yds.length = 4 ∧ t7 = [] then
                  let y := digitsToNat yds
                  let d := digitsToNat dds
                  if validDate y m d then some (y, m, d) else none
                else none
              else none
            | _ => none
          else none
        else none

/-- Embeds `strftime('%Y-%m-%d')` on glibc: the year unpadded (four digits for any
year ≥ 1000), month and day zero-padded to two digits. -/
def isoFormat (y m d : Nat) : String :=
  String.mk (natDigits y ++ '-' :: (pad2 m ++ '-' :: pad2 d))

/-- Embeds `convert_from_aria_label`: `none` models the raised `ValueError`. -/
def convert_from_aria_label (aria_label : String) : Option String :=
  (parseAriaChars aria_label.toList).map (fun t => isoFormat t.1 t.2.1 t.2.2)

/-! ## Classifier (`scan_html_for_dates`, `is_green`)

The rendered page is modelled as the visible text that `soup.get_text()`
extracts plus the list of elements carrying an `aria-label`; an element's
`style` attribute defaults to the empty string, as in `element.get("style", "")`. -/

/-- Verdict per requested date.  The source returns the strings
`"green"` / `"red"` / `"blank"` / `"blocked"`. -/
inductive Verdict where
  | green | red | blank | blocked
deriving DecidableEq, Repr

/-- A DOM element as the classifier sees it. -/
structure DomElement where
  ariaLabel : Option String
  style : String
deriving DecidableEq, Repr

/-- A rendered-page snapshot: visible text plus elements. -/
structure DomSnapshot where
  pageText : String
  elements : List DomElement
deriving DecidableEq, Repr

/-- Embeds `is_green`: normalize the inline style (`lower()` then remove blanks),
require a `background-color` declaration somewhere in it, then look for the
green components `49,200,25` (or the full `rgb(49,200,25)`) anywhere. -/
def is_green (style_attr : String) : Bool :=
  if style_attr.isEmpty then false
  else
    let style_norm := (style_attr.toList.map Char.toLower).filter (fun c => !(c = ' '))
    if !(isInfixL "background-color".toList style_norm) then false
    else if isInfixL "49,200,25".toList style_norm then true
    else if isInfixL "rgb(49,200,25)".toList style_norm then true
    else false

/-- The closed set of block indicators checked by `scan_html_for_dates`. -/
def blocking_indicators : List String :=
  ["Please try again", "Access Denied", "forbidden", "cloudflare",
   "challenge", "captcha", "rate limit", "too many requests"]

/-- Console noise that is ignored: CORS errors are normal browser behavior. -/
def cors_indicators : List String := ["cors", "access-control-allow-origin"]

/-- Console messages that survive the CORS filter. -/
def nonCorsLogs (console_logs : List String) : List String :=
  console_logs.filter (fun log => !(cors_indicators.any (fun ci => containsLower log ci)))

/-- The block test of `scan_html_for_dates`: an indicator in the visible page
text, or — when console logs were collected — in the joined text of the
non-CORS console messages, all case-insensitively. -/
def blockingFound (pageText : String) (console_logs : List String) : Bool :=
  blocking_indicators.any (fun ind => containsLower pageText ind)
    || (!console_logs.isEmpty
        && blocking_indicators.any
            (fun ind => containsLower (joinSpace (nonCorsLogs console_logs)) ind))

/-- The `^\d{4}-\d{2}-\d{2}$` test applied to each requested date. -/
def isIsoShape (s : String) : Bool :=
  match s.toList with
  | [a, b, c, d, e, f, g, h, i, j] =>
    a.isDigit && b.isDigit && c.isDigit && d.isDigit && e == '-'
      && f.isDigit && g.isDigit && h == '-' && i.isDigit && j.isDigit
  | _ => false

/-- The aria label looked up for a requested date: converted when the date has
ISO shape, used verbatim otherwise.  `none` models the `ValueError` raised by
`convert_to_aria_label` on an ISO-shaped but invalid date. -/
def ariaLabelForDate (date_str : String) : Option String :=
  if isIsoShape date_str then convert_to_aria_label date_str else some date_str

/-- Embeds `scan_html_for_dates`: block detection first (all dates `blocked`),
otherwise per date find the element with the matching aria label —
absent ⇒ `blank`, present ⇒ `green`/`red` by `is_green` on its style.
The outer `none` models an uncaught `ValueError` escaping the scan. -/
def scan_html_for_dates (dom : DomSnapshot) (date_list : List String)
    (console_logs : List String) : Option (List (String × Verdict)) :=
  if blockingFound dom.pageText console_logs then
    some (date_list.map (fun d => (d, Verdict.blocked)))
  else
    date_list.mapM (fun date_str =>
      (ariaLabelForDate date_str).map (fun aria_label =>
        match dom.elements.find? (fun e => e.ariaLabel == some aria_label) with
        | some element =>
          (date_str, if is_green element.style then Verdict.green else Verdict.red)
        | none => (date_str, Verdict.blank)))

/-! ## `check_multiple_dates` (retry wrapper)

One browser attempt either reaches the snapshot (DOM plus console logs),
returns early because the page title signalled blocking, or raises.  A raised
`WebDriverException` (and any exception whose text looks like a connection
error) is retried while attempts remain; any other exception aborts to the
all-`blank` result at once.  `max_retries = 2`. -/

/-- Outcome of one navigation attempt, as the surrounding `try` observes it. -/
inductive AttemptFate where
  | pageOk (dom : DomSnapshot) (console_logs : List String)
  | titleBlocked
  | raisedWebDriver (msg : String)
  | raisedOther (msg : String)

/-- The substrings that mark a connection/driver error worth retrying. -/
def connection_error_markers : List String :=
  ["connection refused", "connection reset", "closed", "not reachable",
   "session", "disconnected", "max retries exceeded", "broken pipe"]

/-- Embeds `is_connection_error`: any marker inside the lower-cased exception text. -/
def is_connection_error (msg : String) : Bool :=
  connection_error_markers.any (fun x => containsLower msg x)

/-- The attempt loop of `check_multiple_dates`. -/
def runAttempts (date_list : List String) : List AttemptFate → List (String × Verdict)
  | [] => date_list.map (fun d => (d, Verdict.blank))
  | fate :: rest =>
    match fate with
    | .titleBlocked => date_list.map (fun d => (d, Verdict.blocked))
    | .pageOk dom console_logs =>
      match scan_html_for_dates dom date_list console_logs with
      | some results => results
      | none => date_list.map (fun d => (d, Verdict.blank))
    | .raisedWebDriver _ =>
      if rest.isEmpty then date_list.map (fun d => (d, Verdict.blank))
      else runAttempts date_list rest
    | .raisedOther msg =>
      if is_connection_error msg then
        if rest.isEmpty then date_list.map (fun d => (d, Verdict.blank))
        else runAttempts date_list rest
      else date_list.map (fun d => (d, Verdict.blank))

/-- Embeds `check_multiple_dates resort_url date_list a1 a2`: two attempts at most.
The `resort_url` only steers navigation, which the attempt fates absorb. -/
def check_multiple_dates (resort_url : String) (date_list : List String)
    (a1 a2 : AttemptFate) : List (String × Verdict) :=
  let _ := resort_url
  runAttempts date_list [a1, a2]

/-- Does an attempt end in a raised exception? -/
def attemptRaises : AttemptFate → Bool
  | .raisedWebDriver _ => true
  | .raisedOther _ => true
  | _ => false

/-! ## Store and per-job engine step (`check_monitoring_jobs`, `database.py`)

Timestamps are minutes as plain naturals.  The SQL `UPDATE … WHERE job_id = ?`
operations touch exactly the rows with the given key. -/

/-- Subscription state: `active` is scheduled, `notified` is paused. -/
inductive JobStatus where
  | active | notified
deriving DecidableEq, Repr

/-- The fields of a job row that the notification step reads. -/
structure JobInfo where
  job_id : Nat
  user_id : Nat
  target_date : String
  resort_name : String
  email : String
deriving DecidableEq, Repr

/-- One row of the append-only `notifications` table. -/
structure NotificationRec where
  job_id : Nat
  user_id : Nat
  resort_name : String
  available_date : String
  sent_at : Nat
  delivery_status : String
deriving DecidableEq, Repr

/-- The store state the engine mutates. -/
structure EngineDB where
  job_status : List (Nat × JobStatus)
  last_checked : List (Nat × Nat)
  success_count : List (Nat × Nat)
  notifications : List NotificationRec
deriving DecidableEq, Repr

/-- Status of a job row (first row with the key, as for a primary key). -/
def statusOf (db : EngineDB) (jid : Nat) : Option JobStatus :=
  (db.job_status.find? (fun p => p.1 == jid)).map Prod.snd

/-- Embeds `UPDATE … SET v WHERE key = k`: rewrite every row carrying the key. -/
def setIn {α : Type} (l : List (Nat × α)) (k : Nat) (v : α) : List (Nat × α) :=
  l.map (fun p => if p.1 = k then (k, v) else p)

/-- Embeds `update_job_last_checked`. -/
def update_job_last_checked (db : EngineDB) (jid now : Nat) : EngineDB :=
  { db with last_checked := setIn db.last_checked jid now }

/-- Embeds `increment_job_success_count`. -/
def increment_job_success_count (db : EngineDB) (jid : Nat) : EngineDB :=
  { db with success_count :=
      db.success_count.map (fun p => if p.1 = jid then (p.1, p.2 + 1) else p) }

/-- Embeds `create_notification`: appends a row, `delivery_status` always `'sent'`. -/
def create_notification (db : EngineDB) (now : Nat) (jid uid : Nat)
    (resort_name available_date : String) : EngineDB :=
  { db with notifications :=
      db.notifications ++ [⟨jid, uid, resort_name, available_date, now, "sent"⟩] }

/-- Embeds `mark_job_notified`: set the job's status to `'notified'`. -/
def mark_job_notified (db : EngineDB) (jid : Nat) : EngineDB :=
  { db with job_status := setIn db.job_status jid .notified }

/-- Embeds `reactivate_job`: set the status back to `'active'`; the returned flag is
`rowcount > 0`. -/
def reactivate_job (db : EngineDB) (jid : Nat) : Bool × EngineDB :=
  ((statusOf db jid).isSome, { db with job_status := setIn db.job_status jid .active })

/-- Embeds `check_recent_notification`: is there a notification row for the job with
`sent_at` after `now - minutes`?  Defined in `database.py` (default 30) but
never called from the engine loop. -/
def check_recent_notification (db : EngineDB) (now jid minutes : Nat) : Bool :=
  db.notifications.any
    (fun n => n.job_id == jid && decide ((now : Int) - (minutes : Int) < (n.sent_at : Int)))

/-- Embeds `get_active_monitoring_jobs`, projected to job ids: only rows with
status `'active'` are returned to the tick. -/
def get_active_monitoring_jobs (db : EngineDB) : List Nat :=
  (db.job_status.filter (fun p => p.2 == JobStatus.active)).map Prod.fst

/-- How the `send_notification_email` call inside the engine's `try` ends. -/
inductive SendOutcome where
  | success | returnedFalse | raised
deriving DecidableEq, Repr

/-- Observable actions of the per-job step, in execution order. -/
inductive EngineEvent where
  | recorded_notification (job_id : Nat)
  | attempted_send (job_id : Nat)
  | marked_notified (job_id : Nat)
  | logged_send_failure (job_id : Nat)
deriving DecidableEq, Repr

/-- The per-job tail of `check_monitoring_jobs` (lines 944–985): touch
`last_checked`; on `green` increment the success count, record the
notification row, then attempt the SMTP send — `mark_job_notified` only when
the send returned `True`; a `False` return or a raised exception is logged and
changes no state. -/
def process_job_result (now : Nat) (db : EngineDB) (job : JobInfo)
    (result : Verdict) (send : SendOutcome) : EngineDB × List EngineEvent :=
  let db1 := update_job_last_checked db job.job_id now
  match result with
  | .green =>
    let db2 := increment_job_success_count db1 job.job_id
    let db3 := create_notification db2 now job.job_id job.user_id
        job.resort_name job.target_date
    match send with
    | .success =>
      (mark_job_notified db3 job.job_id,
       [.recorded_notification job.job_id, .attempted_send job.job_id,
        .marked_notified job.job_id])
    | .returnedFalse =>
      (db3,
       [.recorded_notification job.job_id, .attempted_send job.job_id,
        .logged_send_failure job.job_id])
    | .raised =>
      (db3,
       [.recorded_notification job.job_id, .attempted_send job.job_id,
        .logged_send_failure job.job_id])
  | _ => (db1, [])

/-! ## Driver pool (`get_or_create_driver`, `cleanup_driver`)

The module keeps `_resort_drivers` and `_driver_use_count` keyed by strings,
and profile directories on disk.  `md5(name)[:8]` is modelled as an injective
renaming (the name itself).  Whether an existing driver answers its liveness
probe, and the random `uuid` profile name, are inputs from the environment. -/

/-- The module-level pool state. -/
structure PoolState where
  resort_drivers : List (String × Nat)
  driver_use_count : List (String × Nat)
  profiles : List String
  next_driver_id : Nat
deriving DecidableEq, Repr

/-- The fixed key the single persistent driver is stored under. -/
def SHARED_KEY : String := "shared_driver"

/-- Mirrors `_MAX_DRIVER_USES` — declared in the module but never consulted. -/
def MAX_DRIVER_USES : Nat := 3

/-- First value stored under a key. -/
def lookupKey {α : Type} (l : List (String × α)) (k : String) : Option α :=
  (l.find? (fun p => p.1 == k)).map Prod.snd

/-- Remove every entry under a key. -/
def removeKey {α : Type} (l : List (String × α)) (k : String) : List (String × α) :=
  l.filter (fun p => !(p.1 == k))

/-- The on-disk directory `md5(s)[:8]`, modelled as an injective renaming. -/
def profile_dir_for (s : String) : String := s

/-- Embeds `get_driver`: creates the profile directory for `profile_name` (if absent)
and hands out a fresh driver. -/
def get_driver (st : PoolState) (profile_name : String) : Nat × PoolState :=
  (st.next_driver_id,
   { st with profiles := st.profiles.insert (profile_dir_for profile_name),
             next_driver_id := st.next_driver_id + 1 })

/-- Embeds `get_or_create_driver`: a live driver under `SHARED_KEY` is returned as-is
for any resort; a dead one is quit and replaced; otherwise a new driver with a
random profile is created and stored under `SHARED_KEY`.  No use counter is
touched. -/
def get_or_create_driver (st : PoolState) (resort_url : String) (alive : Bool)
    (random_profile : String) : (Nat × Bool) × PoolState :=
  let _ := resort_url
  match lookupKey st.resort_drivers SHARED_KEY with
  | some driver =>
    if alive then ((driver, false), st)
    else
      let st1 := { st with resort_drivers := removeKey st.resort_drivers SHARED_KEY }
      let fresh := get_driver st1 random_profile
      ((fresh.1, true),
       { fresh.2 with resort_drivers := (SHARED_KEY, fresh.1) :: fresh.2.resort_drivers })
  | none =>
    let fresh := get_driver st random_profile
    ((fresh.1, true),
     { fresh.2 with resort_drivers := (SHARED_KEY, fresh.1) :: fresh.2.resort_drivers })

/-- Embeds `cleanup_driver`: when a shared driver exists and the key being cleaned is
a resort URL, return immediately (the shared driver is deliberately kept);
otherwise quit and drop the driver stored under `resort_url` (with its use
count) and, when `clear_profile`, remove the directory derived from the
resort URL. -/
def cleanup_driver (st : PoolState) (resort_url : String) (clear_profile : Bool) :
    PoolState :=
  if lookupKey st.resort_drivers SHARED_KEY ≠ none ∧ resort_url ≠ SHARED_KEY then st
  else
    let st1 :=
      if lookupKey st.resort_drivers resort_url ≠ none then
        { st with resort_drivers := removeKey st.resort_drivers resort_url,
                  driver_use_count := removeKey st.driver_use_count resort_url }
      else st
    if clear_profile then
      { st1 with profiles := st1.profiles.erase (profile_dir_for resort_url) }
    else st1

/-- The blocked-resort reaction of `check_monitoring_jobs` (lines 927–930):
`cleanup_driver(resort_url, clear_profile=True)`. -/
def handle_blocked_resort (st : PoolState) (resort_url : String) : PoolState :=
  cleanup_driver st resort_url true

/-! ## Signed resume/stop links (`webapp/app.py`)

`URLSafeTimedSerializer` is modelled symbolically: a token records the payload,
the issue time and the salt whose derived key signed it.  `loads` rejects a
token signed under a different salt (`BadTimeSignature`), then rejects one
older than `max_age` (`SignatureExpired`). -/

/-- A signed token, symbolically. -/
structure SignedToken where
  payload : Nat
  issued_at : Nat
  salt : String
deriving DecidableEq, Repr

/-- Result of `loads`: the payload, or which exception was raised. -/
inductive LoadResult where
  | ok (payload : Nat) | expired | badSignature
deriving DecidableEq, Repr

/-- Embeds `s.dumps(payload, salt=salt)` at time `now`. -/
def dumpsToken (salt : String) (payload : Nat) (now : Nat) : SignedToken :=
  ⟨payload, now, salt⟩

/-- The `max_age` used by both link routes: `86400 * 7`. -/
def SEVEN_DAYS : Nat := 86400 * 7

/-- Embeds `s.loads(token, salt=salt, max_age=max_age)` at time `now`. -/
def loadsToken (salt : String) (max_age now : Nat) (tok : SignedToken) : LoadResult :=
  if tok.salt ≠ salt then .badSignature
  else if max_age < now - tok.issued_at then .expired
  else .ok tok.payload

/-- The two tokens `send_notification_email` embeds in the email:
the continue (RESUME) token and the stop token, under distinct salts. -/
def send_notification_email_tokens (job_id now : Nat) : SignedToken × SignedToken :=
  (dumpsToken "continue-monitoring" job_id now, dumpsToken "stop-monitoring" job_id now)

/-- What a link route renders. -/
inductive RouteOutcome where
  | success | expiredPage | invalidPage | errorPage
deriving DecidableEq, Repr

/-- The `/continue-monitoring/<token>` route. -/
def continue_monitoring (db : EngineDB) (now : Nat) (tok : SignedToken) :
    RouteOutcome × EngineDB :=
  match loadsToken "continue-monitoring" SEVEN_DAYS now tok with
  | .expired => (.expiredPage, db)
  | .badSignature => (.invalidPage, db)
  | .ok job_id =>
    let r := reactivate_job db job_id
    if r.1 then (.success, r.2) else (.errorPage, db)

/-- The `/stop-monitoring/<token>` route: a verified token deletes the job
(or reports it already removed). -/
def stop_monitoring (db : EngineDB) (now : Nat) (tok : SignedToken) :
    RouteOutcome × EngineDB :=
  match loadsToken "stop-monitoring" SEVEN_DAYS now tok with
  | .expired => (.expiredPage, db)
  | .badSignature => (.invalidPage, db)
  | .ok job_id =>
    match statusOf db job_id with
    | none => (.success, db)
    | some _ =>
      (.success, { db with job_status := db.job_status.filter (fun p => !(p.1 == job_id)) })

/-! ## Concrete fixtures shared by witnesses and counterexamples -/

/-- An active subscription row as the engine sees it. -/
def exJob : JobInfo := ⟨1, 7, "2026-02-14", "Brighton", "u@x.test"⟩

/-- A store with job 1 active and an empty notification log. -/
def exDB0 : EngineDB := ⟨[(1, .active)], [(1, 0)], [(1, 0)], []⟩

/-- A store with job 1 active and a notification recorded one minute ago
(timestamps in minutes). -/
def exDBrecent : EngineDB :=
  ⟨[(1, .active)], [(1, 0)], [(1, 0)], [⟨1, 7, "Brighton", "2026-02-14", 70, "sent"⟩]⟩

/-- An empty driver pool. -/
def emptyPool : PoolState := ⟨[], [], [], 0⟩

/-- A pool holding a live shared driver and one persisted profile. -/
def poolWithShared : PoolState := ⟨[(SHARED_KEY, 5)], [], ["profile_cccc"], 6⟩

/-! ## Helper lemmas: prefixes, substrings, joins -/

theorem isPre_iff : ∀ (a b : List Char), isPre a b = true ↔ a <+: b
  | [], b => by simp [isPre]
  | _ :: _, [] => by simp [isPre]
  | a :: as, b :: bs => by
    by_cases h : a = b
    · subst h
      simp only [isPre, if_pos rfl, List.cons_prefix_cons, true_and]
      exact isPre_iff as bs
    · simp only [isPre, if_neg h, List.cons_prefix_cons]
      simp [h]

theorem isInfixL_iff : ∀ (n h : List Char), isInfixL n h = true ↔ n <:+: h
  | n, [] => by
    cases n <;> simp [isInfixL, List.isEmpty]
  | n, c :: t => by
    simp only [isInfixL, Bool.or_eq_true, isPre_iff, isInfixL_iff n t,
      List.infix_cons_iff]

theorem infix_map (f : Char → Char) {l₁ l₂ : List Char} (h : l₁ <:+: l₂) :
    l₁.map f <:+: l₂.map f := by
  obtain ⟨s, t, rfl⟩ := h
  exact ⟨s.map f, t.map f, by simp⟩

theorem toList_append (a b : String) : (a ++ b).toList = a.toList ++ b.toList :=
  String.data_append a b

theorem joinSpace_contains {s : String} : ∀ {L : List String}, s ∈ L →
    s.toList <:+: (joinSpace L).toList
  | [], h => absurd h (List.not_mem_nil s)
  | [x], h => by
    rcases List.mem_singleton.mp h with rfl
    exact List.infix_rfl
  | x :: y :: rest, h => by
    rcases List.mem_cons.mp h with rfl | h2
    · refine ⟨[], (" " ++ joinSpace (y :: rest)).toList, ?_⟩
      simp [joinSpace, toList_append]
    · have ih := joinSpace_contains h2
      obtain ⟨u, v, huv⟩ := ih
      refine ⟨(x ++ " ").toList ++ u, v, ?_⟩
      calc ((x ++ " ").toList ++ u) ++ s.toList ++ v
          = (x ++ " ").toList ++ (u ++ s.toList ++ v) := by simp [List.append_assoc]
        _ = (x ++ " ").toList ++ (joinSpace (y :: rest)).toList := by rw [huv]
        _ = ((x ++ " ") ++ joinSpace (y :: rest)).toList := (toList_append _ _).symm
        _ = (joinSpace (x :: y :: rest)).toList := rfl

theorem breakAtComma_append {pre : List Char} (h : ',' ∉ pre) (t : List Char) :
    breakAtComma (pre ++ ',' :: t) = some (pre, t) := by
  induction pre with
  | nil => simp [breakAtComma]
  | cons c cs ih =>
    have hc : ¬ c = ',' := fun hc => h (hc ▸ List.mem_cons_self c cs)
    have hcs : ',' ∉ cs := fun hm => h (List.mem_cons_of_mem c hm)
    simp [breakAtComma, hc, ih hcs]

theorem takeWhile_append_stop {p : Char → Bool} {l : List Char} {c : Char}
    (hall : ∀ x ∈ l, p x = true) (hc : p c = false) (r : List Char) :
    (l ++ c :: r).takeWhile p = l := by
  induction l with
  | nil => simp [List.takeWhile_cons, hc]
  | cons a as ih =>
    have ha : p a = true := hall a (List.mem_cons_self a as)
    have has : ∀ x ∈ as, p x = true := fun x hx => hall x (List.mem_cons_of_mem a hx)
    simp [List.takeWhile_cons, ha, ih has]

theorem dropWhile_append_stop {p : Char → Bool} {l : List Char} {c : Char}
    (hall : ∀ x ∈ l, p x = true) (hc : p c = false) (r : List Char) :
    (l ++ c :: r).dropWhile p = c :: r := by
  induction l with
  | nil => simp [List.dropWhile_cons, hc]
  | cons a as ih =>
    have ha : p a = true := hall a (List.mem_cons_self a as)
    have has : ∀ x ∈ as, p x = true := fun x hx => hall x (List.mem_cons_of_mem a hx)
    simp [List.dropWhile_cons, ha, ih has]

theorem takeWhile_all {p : Char → Bool} {l : List Char}
    (hall : ∀ x ∈ l, p x = true) : l.takeWhile p = l := by
  induction l with
  | nil => rfl
  | cons a as ih =>
    have ha : p a = true := hall a (List.mem_cons_self a as)
    have has : ∀ x ∈ as, p x = true := fun x hx => hall x (List.mem_cons_of_mem a hx)
    simp [List.takeWhile_cons, ha, ih has]

theorem dropWhile_all {p : Char → Bool} {l : List Char}
    (hall : ∀ x ∈ l, p x = true) : l.dropWhile p = [] := by
  induction l with
  | nil => rfl
  | cons a as ih =>
    have ha : p a = true := hall a (List.mem_cons_self a as)
    have has : ∀ x ∈ as, p x = true := fun x hx => hall x (List.mem_cons_of_mem a hx)
    simp [List.dropWhile_cons, ha, ih has]

theorem dropWhile_cons_of_neg {p : Char → Bool} {c : Char} (hc : p c = false)
    (l : List Char) : (c :: l).dropWhile p = c :: l := by
  simp [List.dropWhile_cons, hc]

theorem stripR_concat {c : Char} (hc : c.isWhitespace = false) (l : List Char) :
    ((l ++ [c]).reverse.dropWhile Char.isWhitespace).reverse = l ++ [c] := by
  rw [List.reverse_append]
  simp only [List.reverse_cons, List.reverse_nil, List.nil_append, List.singleton_append]
  rw [dropWhile_cons_of_neg hc]
  simp

/-! ## Helper lemmas: decimal numerals -/

theorem digitChar_isDigit (k : Nat) : (digitChar k).isDigit = true := by
  unfold digitChar
  split <;> decide

theorem digitChar_not_ws (k : Nat) : (digitChar k).isWhitespace = false := by
  unfold digitChar
  split <;> decide

theorem digitChar_ne_comma (k : Nat) : ¬ digitChar k = ',' := by
  unfold digitChar
  split <;> decide

theorem digitVal_digitChar {k : Nat} (h : k < 10) : digitVal (digitChar k) = k := by
  interval_cases k <;> decide

theorem natDigitsAux_eq : ∀ (fuel n : Nat), n < fuel →
    natDigitsAux fuel n = natDigits n := by
  intro fuel
  induction fuel using Nat.strong_induction_on with
  | _ fuel ih =>
    intro n h
    match fuel, h with
    | f + 1, h =>
      by_cases h10 : n < 10
      · simp [natDigitsAux, natDigits, h10]
      · have hdiv : n / 10 < n := Nat.div_lt_self (by omega) (by omega)
        show natDigitsAux (f + 1) n = natDigitsAux (n + 1) n
        rw [show natDigitsAux (f + 1) n
              = natDigitsAux f (n / 10) ++ [digitChar (n % 10)] by simp [natDigitsAux, h10],
            show natDigitsAux (n + 1) n
              = natDigitsAux n (n / 10) ++ [digitChar (n % 10)] by simp [natDigitsAux, h10]]
        rw [ih f (by omega) (n / 10) (by omega), ih n (by omega) (n / 10) (by omega)]

theorem natDigits_base {n : Nat} (h : n < 10) : natDigits n = [digitChar n] := by
  simp [natDigits, natDigitsAux, h]

theorem natDigits_step {n : Nat} (h : ¬ n < 10) :
    natDigits n = natDigits (n / 10) ++ [digitChar (n % 10)] := by
  have hdiv : n / 10 < n := Nat.div_lt_self (by omega) (by omega)
  show natDigitsAux (n + 1) n = _
  rw [show natDigitsAux (n + 1) n
        = natDigitsAux n (n / 10) ++ [digitChar (n % 10)] by simp [natDigitsAux, h]]
  rw [natDigitsAux_eq n (n / 10) (by omega)]

theorem natDigits_mem {n : Nat} : ∀ c ∈ natDigits n, ∃ k, c = digitChar k := by
  induction n using Nat.strong_induction_on with
  | _ n ih =>
    by_cases h : n < 10
    · rw [natDigits_base h]
      intro c hc
      rcases List.mem_singleton.mp hc with rfl
      exact ⟨n, rfl⟩
    · rw [natDigits_step h]
      intro c hc
      rcases List.mem_append.mp hc with hc1 | hc2
      · exact ih (n / 10) (Nat.div_lt_self (by omega) (by omega)) c hc1
      · rcases List.mem_singleton.mp hc2 with rfl
        exact ⟨n % 10, rfl⟩

theorem natDigits_all_digit {n : Nat} : ∀ c ∈ natDigits n, c.isDigit = true := by
  intro c hc
  obtain ⟨k, rfl⟩ := natDigits_mem c hc
  exact digitChar_isDigit k

theorem natDigits_ne_nil (n : Nat) : natDigits n ≠ [] := by
  by_cases h : n < 10
  · rw [natDigits_base h]; simp
  · rw [natDigits_step h]; simp

theorem natDigits_not_ws {n : Nat} : ∀ c ∈ natDigits n, c.isWhitespace = false := by
  intro c hc
  obtain ⟨k, rfl⟩ := natDigits_mem c hc
  exact digitChar_not_ws k

theorem digitsToNat_go (n : Nat) : ∀ a : Nat,
    (natDigits n).foldl (fun a c => a * 10 + digitVal c) a
      = a * 10 ^ (natDigits n).length + n := by
  induction n using Nat.strong_induction_on with
  | _ n ih =>
    intro a
    by_cases h : n < 10
    · rw [natDigits_base h]
      simp [digitVal_digitChar h]
    · rw [natDigits_step h]
      rw [List.foldl_append, ih (n / 10) (Nat.div_lt_self (by omega) (by omega)) a]
      simp only [List.foldl_cons, List.foldl_nil, List.length_append, List.length_singleton]
      rw [digitVal_digitChar (Nat.mod_lt _ (by omega))]
      have hpow : 10 ^ ((natDigits (n / 10)).length + 1)
          = 10 ^ (natDigits (n / 10)).length * 10 := pow_succ 10 _
      rw [hpow]
      have hdm : n / 10 * 10 + n % 10 = n := by omega
      calc (a * 10 ^ (natDigits (n / 10)).length + n / 10) * 10 + n % 10
          = a * (10 ^ (natDigits (n / 10)).length * 10) + (n / 10 * 10 + n % 10) := by ring
        _ = a * (10 ^ (natDigits (n / 10)).length * 10) + n := by rw [hdm]

theorem digitsToNat_natDigits (n : Nat) : digitsToNat (natDigits n) = n := by
  have h := digitsToNat_go n 0
  simpa [digitsToNat] using h

theorem natDigits_length_le : ∀ (k n : Nat), n < 10 ^ (k + 1) →
    (natDigits n).length ≤ k + 1 := by
  intro k
  induction k with
  | zero =>
    intro n h
    rw [natDigits_base (by simpa using h)]
    simp
  | succ k ih =>
    intro n h
    by_cases h10 : n < 10
    · rw [natDigits_base h10]; simp
    · rw [natDigits_step h10]
      rw [List.length_append, List.length_singleton]
      have hdiv : n / 10 < 10 ^ (k + 1) := by
        rw [Nat.div_lt_iff_lt_mul (by omega)]
        calc n < 10 ^ (k + 2) := h
          _ = 10 ^ (k + 1) * 10 := by ring
      have := ih (n / 10) hdiv
      omega

theorem natDigits_length_ge : ∀ (k n : Nat), 10 ^ k ≤ n →
    k + 1 ≤ (natDigits n).length := by
  intro k
  induction k with
  | zero =>
    intro n _
    have := natDigits_ne_nil n
    have : 0 < (natDigits n).length := List.length_pos.mpr this
    omega
  | succ k ih =>
    intro n h
    have h10 : ¬ n < 10 := by
      have h1 : 10 ≤ 10 ^ (k + 1) := by
        calc 10 = 10 ^ 1 := by ring
          _ ≤ 10 ^ (k + 1) := Nat.pow_le_pow_right (by omega) (by omega)
      omega
    rw [natDigits_step h10, List.length_append, List.length_singleton]
    have hdiv : 10 ^ k ≤ n / 10 := by
      rw [Nat.le_div_iff_mul_le (by omega)]
      calc 10 ^ k * 10 = 10 ^ (k + 1) := by ring
        _ ≤ n := h
    have := ih (n / 10) hdiv
    omega

theorem natDigits_length_four {y : Nat} (h1 : 1000 ≤ y) (h2 : y ≤ 9999) :
    (natDigits y).length = 4 := by
  have hle := natDigits_length_le 3 y (by omega)
  have hge := natDigits_length_ge 3 y (by omega)
  omega

theorem natDigits_length_le_two {n : Nat} (h : n ≤ 99) : (natDigits n).length ≤ 2 :=
  natDigits_length_le 1 n (by omega)

theorem natDigits_head (n : Nat) :
    ∃ c cs, natDigits n = c :: cs ∧ c.isWhitespace = false ∧ c.isDigit = true := by
  cases hnd : natDigits n with
  | nil => exact absurd hnd (natDigits_ne_nil n)
  | cons c cs =>
    have hc : c ∈ natDigits n := by rw [hnd]; exact List.mem_cons_self c cs
    obtain ⟨k, rfl⟩ := natDigits_mem c hc
    exact ⟨digitChar k, cs, rfl, digitChar_not_ws k, digitChar_isDigit k⟩

theorem natDigits_concat (n : Nat) :
    ∃ ds c, natDigits n = ds ++ [c] ∧ c.isWhitespace = false := by
  by_cases h : n < 10
  · exact ⟨[], digitChar n, by rw [natDigits_base h]; rfl, digitChar_not_ws n⟩
  · exact ⟨natDigits (n / 10), digitChar (n % 10), natDigits_step h,
      digitChar_not_ws (n % 10)⟩

theorem pad2_all_digit {n : Nat} : ∀ c ∈ pad2 n, c.isDigit = true := by
  intro c hc
  by_cases h : n < 10
  · simp only [pad2, if_pos h] at hc
    rcases List.mem_cons.mp hc with rfl | hc2
    · decide
    · exact natDigits_all_digit c hc2
  · simp only [pad2, if_neg h] at hc
    exact natDigits_all_digit c hc

theorem pad2_length {n : Nat} (h : n ≤ 99) : (pad2 n).length = 2 := by
  by_cases h10 : n < 10
  · simp only [pad2, if_pos h10, natDigits_base h10]
    rfl
  · simp only [pad2, if_neg h10]
    have hle := natDigits_length_le_two h
    have hge := natDigits_length_ge 1 n (by omega)
    omega

theorem digitsToNat_pad2 (n : Nat) : digitsToNat (pad2 n) = n := by
  by_cases h : n < 10
  · simp only [pad2, if_pos h, digitsToNat, List.foldl_cons]
    have h0 : (0 : Nat) * 10 + digitVal '0' = 0 := by decide
    rw [h0]
    exact digitsToNat_natDigits n
  · simp only [pad2, if_neg h]
    exact digitsToNat_natDigits n

/-! ## Helper lemmas: the month and weekday tables -/

theorem weekday_no_comma (w : Nat) : ',' ∉ weekdayChars w := by
  unfold weekdayChars
  split <;> decide

theorem monthChars_head {m : Nat} (h1 : 1 ≤ m) (h2 : m ≤ 12) :
    ∃ mc mcs, monthChars m = mc :: mcs ∧ mc.isWhitespace = false := by
  interval_cases m <;> exact ⟨_, _, rfl, by decide⟩

theorem parseMonth_literal {m : Nat} (h1 : 1 ≤ m) (h2 : m ≤ 12) (rest : List Char) :
    parseMonth (monthChars m ++ rest) = some (m, rest) := by
  interval_cases m <;> rfl

theorem daysInMonth_le (y m : Nat) : daysInMonth y m ≤ 31 := by
  unfold daysInMonth
  split
  · split <;> omega
  all_goals omega

/-! ## The date-converter round trip (claim C8) -/

theorem stripL_clean {mid : List Char} {c0 cl : Char} (h0 : c0.isWhitespace = false)
    (hl : cl.isWhitespace = false) :
    stripL (' ' :: c0 :: (mid ++ [cl])) = c0 :: (mid ++ [cl]) := by
  unfold stripL
  have hdrop : (' ' :: c0 :: (mid ++ [cl])).dropWhile Char.isWhitespace
      = c0 :: (mid ++ [cl]) := by
    rw [List.dropWhile_cons]
    simp only [show (' ' : Char).isWhitespace = true from by decide, if_pos]
    exact dropWhile_cons_of_neg h0 _
  rw [hdrop]
  exact stripR_concat hl (c0 :: mid)

theorem parseAria_encode {y m d : Nat} (hv : validDate y m d = true)
    (hy : 1000 ≤ y) : parseAriaChars (ariaLabelChars y m d) = some (y, m, d) := by
  have hv' := hv
  simp only [validDate, decide_eq_true_eq] at hv'
  obtain ⟨hy1, hy2, hm1, hm2, hd1, hd2⟩ := hv'
  have hd31 : d ≤ 31 := le_trans hd2 (daysInMonth_le y m)
  obtain ⟨mc0, mcs, hmdec, hmc0⟩ := monthChars_head hm1 hm2
  obtain ⟨yds0, ycl, hylast, hycl⟩ := natDigits_concat y
  obtain ⟨dc, dcs, hddec, hdcws, hdcdig⟩ := natDigits_head d
  obtain ⟨yc, ycs, hydec, hycws, hycdig⟩ := natDigits_head y
  -- the label split at its first comma
  have hsplit : ariaLabelChars y m d
      = weekdayChars (pyWeekday y m d)
        ++ ',' :: (' ' :: (monthChars m ++ ' '
            :: (natDigits d ++ ',' :: ' ' :: natDigits y))) := by
    simp only [ariaLabelChars, List.append_assoc]
    rfl
  have hbreak : breakAtComma (ariaLabelChars y m d)
      = some (weekdayChars (pyWeekday y m d),
          ' ' :: (monthChars m ++ ' ' :: (natDigits d ++ ',' :: ' ' :: natDigits y))) := by
    rw [hsplit]
    exact breakAtComma_append (weekday_no_comma _) _
  -- stripping the part after the comma removes exactly the leading blank
  have hA : monthChars m ++ ' ' :: (natDigits d ++ ',' :: ' ' :: natDigits y)
      = mc0 :: ((mcs ++ ' ' :: (natDigits d ++ ',' :: ' ' :: yds0)) ++ [ycl]) := by
    rw [hmdec, hylast]
    simp [List.append_assoc]
  have hstrip : stripL (' ' :: (monthChars m ++ ' '
        :: (natDigits d ++ ',' :: ' ' :: natDigits y)))
      = monthChars m ++ ' ' :: (natDigits d ++ ',' :: ' ' :: natDigits y) := by
    calc stripL (' ' :: (monthChars m ++ ' ' :: (natDigits d ++ ',' :: ' ' :: natDigits y)))
        = stripL (' ' :: mc0 :: ((mcs ++ ' ' :: (natDigits d ++ ',' :: ' ' :: yds0)) ++ [ycl])) := by
          rw [hA]
      _ = mc0 :: ((mcs ++ ' ' :: (natDigits d ++ ',' :: ' ' :: yds0)) ++ [ycl]) :=
          stripL_clean hmc0 hycl
      _ = monthChars m ++ ' ' :: (natDigits d ++ ',' :: ' ' :: natDigits y) := hA.symm
  have hmonth : parseMonth (monthChars m ++ ' '
        :: (natDigits d ++ ',' :: ' ' :: natDigits y))
      = some (m, ' ' :: (natDigits d ++ ',' :: ' ' :: natDigits y)) :=
    parseMonth_literal hm1 hm2 _
  -- day digits
  have hdrop3 : (natDigits d ++ ',' :: ' ' :: natDigits y).dropWhile Char.isWhitespace
      = natDigits d ++ ',' :: ' ' :: natDigits y := by
    rw [hddec]
    exact dropWhile_cons_of_neg hdcws _
  have htake_d : (natDigits d ++ ',' :: ' ' :: natDigits y).takeWhile Char.isDigit
      = natDigits d :=
    takeWhile_append_stop natDigits_all_digit (by decide) _
  have hdrop_d : (natDigits d ++ ',' :: ' ' :: natDigits y).dropWhile Char.isDigit
      = ',' :: ' ' :: natDigits y :=
    dropWhile_append_stop natDigits_all_digit (by decide) _
  have hlen_d : 1 ≤ (natDigits d).length ∧ (natDigits d).length ≤ 2 := by
    constructor
    · have := natDigits_ne_nil d
      have := List.length_pos.mpr this
      omega
    · exact natDigits_length_le_two (by omega)
  -- year digits
  have hdrop_y : (natDigits y).dropWhile Char.isWhitespace = natDigits y := by
    rw [hydec]
    exact dropWhile_cons_of_neg hycws _
  have htake_y : (natDigits y).takeWhile Char.isDigit = natDigits y :=
    takeWhile_all natDigits_all_digit
  have hdrop_y2 : (natDigits y).dropWhile Char.isDigit = [] :=
    dropWhile_all natDigits_all_digit
  have hlen_y : (natDigits y).length = 4 := natDigits_length_four hy hy2
  -- assemble
  simp only [parseAriaChars, hbreak, hstrip, hmonth, hdrop3, htake_d, hdrop_d,
    hlen_d, hdrop_y, htake_y, hdrop_y2, hlen_y,
    show (' ' : Char).isWhitespace = true from by decide,
    digitsToNat_natDigits, hv, if_true, and_self, and_true, true_and, if_pos]

theorem strptimeIso_isoFormat {y m d : Nat} (hv : validDate y m d = true)
    (hy : 1000 ≤ y) : strptimeIso (isoFormat y m d).toList = some (y, m, d) := by
  have hv' := hv
  simp only [validDate, decide_eq_true_eq] at hv'
  obtain ⟨hy1, hy2, hm1, hm2, hd1, hd2⟩ := hv'
  have hd31 : d ≤ 31 := le_trans hd2 (daysInMonth_le y m)
  have hiso : (isoFormat y m d).toList
      = natDigits y ++ '-' :: (pad2 m ++ '-' :: pad2 d) := rfl
  have htake_y : (natDigits y ++ '-' :: (pad2 m ++ '-' :: pad2 d)).takeWhile Char.isDigit
      = natDigits y :=
    takeWhile_append_stop natDigits_all_digit (by decide) _
  have hdrop_y : (natDigits y ++ '-' :: (pad2 m ++ '-' :: pad2 d)).dropWhile Char.isDigit
      = '-' :: (pad2 m ++ '-' :: pad2 d) :=
    dropWhile_append_stop natDigits_all_digit (by decide) _
  have hlen_y : (natDigits y).length = 4 := natDigits_length_four hy hy2
  have htake_m : (pad2 m ++ '-' :: pad2 d).takeWhile Char.isDigit = pad2 m :=
    takeWhile_append_stop pad2_all_digit (by decide) _
  have hdrop_m : (pad2 m ++ '-' :: pad2 d).dropWhile Char.isDigit = '-' :: pad2 d :=
    dropWhile_append_stop pad2_all_digit (by decide) _
  have hlen_m : (pad2 m).length = 2 := pad2_length (by omega)
  have htake_d : (pad2 d).takeWhile Char.isDigit = pad2 d :=
    takeWhile_all pad2_all_digit
  have hdrop_d : (pad2 d).dropWhile Char.isDigit = [] :=
    dropWhile_all pad2_all_digit
  have hlen_d : (pad2 d).length = 2 := pad2_length (by omega)
  simp only [hiso, strptimeIso, htake_y, hdrop_y, hlen_y, htake_m, hdrop_m, hlen_m,
    htake_d, hdrop_d, hlen_d, digitsToNat_natDigits, digitsToNat_pad2, hv,
    if_true, and_self, and_true, true_and, if_pos]
  norm_num

/-- Sanity anchor against the reference implementation. -/
example : convert_to_aria_label "2025-03-16" = some "Sunday, March 16, 2025" := by decide

/-- Sanity anchor: the round trip on a concrete legal date. -/
example : convert_from_aria_label "Sunday, March 16, 2025" = some "2025-03-16" := by decide

/-- C8 (amended): for every legal date with a four-digit year (1000–9999), the
encoder emits exactly the label `"Weekday, Month D, YYYY"` — full weekday and
month names, unpadded day, four-digit year — and decoding that label returns
the ISO date: `Decode (Encode d) = d`.  (For years below 1000 the label's year
has fewer than four digits and the round trip fails; see the counterexample.) -/
theorem aria_roundtrip_four_digit_years (y m d : Nat)
    (hv : validDate y m d = true) (hy : 1000 ≤ y) :
    convert_to_aria_label (isoFormat y m d) = some (encodeAria y m d)
    ∧ convert_from_aria_label (encodeAria y m d) = some (isoFormat y m d)
    ∧ (convert_to_aria_label (isoFormat y m d)).bind convert_from_aria_label
        = some (isoFormat y m d)
    ∧ encodeAria y m d = String.mk (weekdayChars (pyWeekday y m d) ++ ", ".toList
        ++ monthChars m ++ " ".toList ++ natDigits d ++ ", ".toList ++ natDigits y)
    ∧ (natDigits y).length = 4 := by
  have h1 : convert_to_aria_label (isoFormat y m d) = some (encodeAria y m d) := by
    unfold convert_to_aria_label
    rw [strptimeIso_isoFormat hv hy]
    rfl
  have h2 : convert_from_aria_label (encodeAria y m d) = some (isoFormat y m d) := by
    unfold convert_from_aria_label
    have htl : (encodeAria y m d).toList = ariaLabelChars y m d := rfl
    rw [htl, parseAria_encode hv hy]
    rfl
  have hy2 : y ≤ 9999 := by
    have hv' := hv
    simp only [validDate, decide_eq_true_eq] at hv'
    exact hv'.2.1
  refine ⟨h1, h2, ?_, rfl, natDigits_length_four hy hy2⟩
  rw [h1]
  exact h2

/-- Witness for `aria_roundtrip_four_digit_years` at `2026-02-14`. -/
theorem aria_roundtrip_four_digit_years_witness :
    validDate 2026 2 14 = true ∧ 1000 ≤ 2026
    ∧ (convert_to_aria_label (isoFormat 2026 2 14)).bind convert_from_aria_label
        = some (isoFormat 2026 2 14) :=
  ⟨by decide, by decide,
   (aria_roundtrip_four_digit_years 2026 2 14 (by decide) (by decide)).2.2.1⟩

/-- C8 counterexample: `0045-03-16` is a legal four-digit-year ISO date that
the coder accepts, but the label it produces renders the year as `"45"` — not
four digits — and decoding that label fails, so the round trip is not the
identity on all legal inputs. -/
theorem aria_roundtrip_small_year_cex :
    strptimeIso "0045-03-16".toList = some (45, 3, 16)
    ∧ convert_to_aria_label "0045-03-16" = some "Thursday, March 16, 45"
    ∧ (convert_to_aria_label "0045-03-16").bind convert_from_aria_label = none := by
  decide

/-! ## The color test `is_green` (claim C9) -/

theorem isInfixL_trans {a b c : List Char} (h1 : isInfixL a b = true)
    (h2 : isInfixL b c = true) : isInfixL a c = true := by
  rw [isInfixL_iff] at h1 h2 ⊢
  exact h1.trans h2

/-- C9 counterexample: an element whose inline style carries the green triple
only as a text `color` while its `background-color` is red is nevertheless
classified AVAILABLE (`green`), because `is_green` only checks that a
`background-color` declaration occurs somewhere and that `49,200,25` occurs
somewhere in the blank-stripped style. -/
theorem green_text_color_cex :
    is_green "color: rgb(49, 200, 25); background-color: rgb(255, 0, 0)" = true
    ∧ scan_html_for_dates
        ⟨"", [⟨some "Saturday, February 14, 2026",
               "color: rgb(49, 200, 25); background-color: rgb(255, 0, 0)"⟩]⟩
        ["2026-02-14"] []
      = some [("2026-02-14", Verdict.green)] := by
  decide

/-- C9 (amended): `is_green` holds iff the normalized style (lower-cased,
blanks removed) contains the substring `background-color` somewhere **and**
contains the triple `49,200,25` somewhere — the triple need not be the value
of the `background-color` declaration itself. -/
theorem is_green_characterization (style_attr : String) :
    is_green style_attr = true
      ↔ (isInfixL "background-color".toList
            ((style_attr.toList.map Char.toLower).filter (fun c => !(c = ' '))) = true
        ∧ isInfixL "49,200,25".toList
            ((style_attr.toList.map Char.toLower).filter (fun c => !(c = ' '))) = true) := by
  obtain ⟨data⟩ := style_attr
  cases data with
  | nil => decide
  | cons c0 cs0 =>
    have hemp : String.isEmpty ⟨c0 :: cs0⟩ = false := by
      rw [Bool.eq_false_iff]
      intro h
      have h2 : (String.mk (c0 :: cs0)).endPos = 0 := beq_iff_eq.mp h
      have h3 : (String.mk (c0 :: cs0)).endPos.byteIdx = 0 := by rw [h2]; rfl
      have h4 : String.utf8ByteSize.go cs0 + c0.utf8Size = 0 := h3
      have := Char.utf8Size_pos c0
      omega
    set style_attr : String := ⟨c0 :: cs0⟩ with hsa
    simp only [is_green, hemp, Bool.false_eq_true, if_false]
    cases hbg : isInfixL "background-color".toList
        ((style_attr.toList.map Char.toLower).filter (fun c => !(c = ' '))) with
    | false => simp [hbg]
    | true =>
      cases h49 : isInfixL "49,200,25".toList
          ((style_attr.toList.map Char.toLower).filter (fun c => !(c = ' '))) with
      | true => simp [hbg, h49]
      | false =>
        cases hrgb : isInfixL "rgb(49,200,25)".toList
            ((style_attr.toList.map Char.toLower).filter (fun c => !(c = ' '))) with
        | false => simp [hbg, h49, hrgb]
        | true =>
          have hsub : isInfixL "49,200,25".toList "rgb(49,200,25)".toList = true := by
            decide
          have := isInfixL_trans hsub hrgb
          rw [this] at h49
          exact absurd h49 (by simp)

/-! ## Block detection (claim C2) -/

/-- C2: whenever the visible page text, or any console message that is not
CORS-category noise, contains one of the closed block indicators
(case-insensitively), `scan_html_for_dates` returns BLOCKED for every
requested date. -/
theorem block_indicators_force_blocked (dom : DomSnapshot)
    (console_logs date_list : List String) (hne : date_list ≠ [])
    (hit : (∃ ind ∈ blocking_indicators, containsLower dom.pageText ind = true)
      ∨ (∃ log ∈ console_logs,
          (∀ ci ∈ cors_indicators, containsLower log ci = false)
          ∧ ∃ ind ∈ blocking_indicators, containsLower log ind = true)) :
    scan_html_for_dates dom date_list console_logs
      = some (date_list.map (fun d => (d, Verdict.blocked))) := by
  have _ := hne
  have hbf : blockingFound dom.pageText console_logs = true := by
    unfold blockingFound
    rcases hit with ⟨ind, hmem, hc⟩ | ⟨log, hmem, hnc, ind, hindmem, hc⟩
    · have h1 : blocking_indicators.any (fun i => containsLower dom.pageText i) = true :=
        List.any_eq_true.mpr ⟨ind, hmem, hc⟩
      simp [h1]
    · have h0 : console_logs.isEmpty = false := by
        have hne' : console_logs ≠ [] := List.ne_nil_of_mem hmem
        rw [Bool.eq_false_iff]
        intro hh
        exact hne' (List.isEmpty_iff.mp hh)
      have hanyf : cors_indicators.any (fun ci => containsLower log ci) = false :=
        List.any_eq_false.mpr (fun ci hci => by rw [hnc ci hci]; simp)
      have hlogmem : log ∈ nonCorsLogs console_logs := by
        refine List.mem_filter.mpr ⟨hmem, ?_⟩
        simp [hanyf]
      have h1 : blocking_indicators.any
          (fun i => containsLower (joinSpace (nonCorsLogs console_logs)) i) = true := by
        refine List.any_eq_true.mpr ⟨ind, hindmem, ?_⟩
        unfold containsLower at hc ⊢
        rw [isInfixL_iff] at hc ⊢
        exact hc.trans (infix_map Char.toLower (joinSpace_contains hlogmem))
      simp [h0, h1]
  simp only [scan_html_for_dates, hbf, if_true]

/-- Witness for `block_indicators_force_blocked` on a concrete blocked page. -/
theorem block_indicators_force_blocked_witness :
    (["2026-02-14"] : List String) ≠ []
    ∧ (∃ ind ∈ blocking_indicators,
        containsLower "Error 1020: Access Denied" ind = true)
    ∧ scan_html_for_dates ⟨"Error 1020: Access Denied", []⟩ ["2026-02-14"] []
        = some [("2026-02-14", Verdict.blocked)] :=
  ⟨by decide, ⟨"Access Denied", by decide, by decide⟩, by
    have h := block_indicators_force_blocked ⟨"Error 1020: Access Denied", []⟩ []
      ["2026-02-14"] (by decide) (Or.inl ⟨"Access Denied", by decide, by decide⟩)
    simpa using h⟩

/-! ## Totality of the availability check (claim C10) -/

theorem map_fst_pair (v : Verdict) (dates : List String) :
    (dates.map (fun d => (d, v))).map Prod.fst = dates := by
  induction dates with
  | nil => rfl
  | cons d ds ih => simp [ih]

theorem mapM_fst_aux {f : String → Option (String × Verdict)}
    (hf : ∀ d p, f d = some p → p.1 = d) :
    ∀ (dates : List String) (r : List (String × Verdict)),
      dates.mapM f = some r → r.map Prod.fst = dates := by
  intro dates
  induction dates with
  | nil =>
    intro r h
    rw [List.mapM_nil] at h
    cases h
    rfl
  | cons d ds ih =>
    intro r h
    rw [List.mapM_cons] at h
    rcases hp : f d with _ | p
    · rw [hp] at h
      have hx : (none : Option (List (String × Verdict))) = some r := h
      simp at hx
    · rw [hp] at h
      rcases hrs : ds.mapM f with _ | rs
      · rw [hrs] at h
        have hx : (none : Option (List (String × Verdict))) = some r := h
        simp at hx
      · rw [hrs] at h
        have hx : (some (p :: rs) : Option (List (String × Verdict))) = some r := h
        injection hx with hx'
        rw [← hx']
        simp only [List.map_cons]
        rw [hf d p hp, ih rs hrs]

theorem scan_html_fst {dom : DomSnapshot} {dates logs : List String}
    {r : List (String × Verdict)}
    (h : scan_html_for_dates dom dates logs = some r) : r.map Prod.fst = dates := by
  unfold scan_html_for_dates at h
  by_cases hbf : blockingFound dom.pageText logs = true
  · rw [if_pos hbf] at h
    injection h with h'
    rw [← h']
    exact map_fst_pair _ _
  · rw [if_neg hbf] at h
    refine mapM_fst_aux ?_ dates r h
    intro d p hp
    rcases Option.map_eq_some'.mp hp with ⟨lab, _, hpe⟩
    rw [← hpe]
    split <;> rfl

theorem runAttempts_single (dates : List String) (a : AttemptFate) :
    ((runAttempts dates [a]).map Prod.fst = dates)
    ∧ (attemptRaises a = true →
        runAttempts dates [a] = dates.map (fun d => (d, Verdict.blank))) := by
  cases a with
  | pageOk dom logs =>
    constructor
    · rcases hscan : scan_html_for_dates dom dates logs with _ | r
      · simp only [runAttempts, hscan]
        exact map_fst_pair _ _
      · simp only [runAttempts, hscan]
        exact scan_html_fst hscan
    · intro h; simp [attemptRaises] at h
  | titleBlocked =>
    constructor
    · simp only [runAttempts]
      exact map_fst_pair _ _
    · intro h; simp [attemptRaises] at h
  | raisedWebDriver msg =>
    constructor
    · exact map_fst_pair _ _
    · intro _; rfl
  | raisedOther msg =>
    have h1 : runAttempts dates [AttemptFate.raisedOther msg]
        = if is_connection_error msg = true
            then dates.map (fun d => (d, Verdict.blank))
            else dates.map (fun d => (d, Verdict.blank)) := rfl
    have h2 : runAttempts dates [AttemptFate.raisedOther msg]
        = dates.map (fun d => (d, Verdict.blank)) := h1.trans (ite_self _)
    constructor
    · rw [h2]
      exact map_fst_pair _ _
    · intro _
      exact h2

/-- C10: for every target URL, non-empty requested date list and any pair of
attempt outcomes, `check_multiple_dates` returns (never raises) an assignment
of exactly one verdict — green / red / blank / blocked — per requested date,
and when both attempts raise (an unrecovered driver failure or internal
error), every requested date gets the `blank` (NOT_FOUND) verdict. -/
theorem check_multiple_dates_total (resort_url : String) (date_list : List String)
    (a1 a2 : AttemptFate) (hne : date_list ≠ []) :
    ((check_multiple_dates resort_url date_list a1 a2).map Prod.fst = date_list)
    ∧ (∀ p ∈ check_multiple_dates resort_url date_list a1 a2,
        p.2 = Verdict.green ∨ p.2 = Verdict.red ∨ p.2 = Verdict.blank
          ∨ p.2 = Verdict.blocked)
    ∧ (attemptRaises a1 = true → attemptRaises a2 = true →
        check_multiple_dates resort_url date_list a1 a2
          = date_list.map (fun d => (d, Verdict.blank))) := by
  have _ := hne
  have hv : ∀ p : String × Verdict,
      p.2 = Verdict.green ∨ p.2 = Verdict.red ∨ p.2 = Verdict.blank
        ∨ p.2 = Verdict.blocked := by
    intro p
    cases h : p.2 <;> simp
  refine ⟨?_, fun p _ => hv p, ?_⟩
  · show ((runAttempts date_list [a1, a2]).map Prod.fst = date_list)
    cases a1 with
    | pageOk dom logs =>
      rcases hscan : scan_html_for_dates dom date_list logs with _ | r
      · simp only [runAttempts, hscan]
        exact map_fst_pair _ _
      · simp only [runAttempts, hscan]
        exact scan_html_fst hscan
    | titleBlocked =>
      simp only [runAttempts]
      exact map_fst_pair _ _
    | raisedWebDriver msg =>
      have hred : runAttempts date_list [AttemptFate.raisedWebDriver msg, a2]
          = runAttempts date_list [a2] := rfl
      rw [hred]
      exact (runAttempts_single date_list a2).1
    | raisedOther msg =>
      have hstep : runAttempts date_list [AttemptFate.raisedOther msg, a2]
          = if is_connection_error msg = true
              then runAttempts date_list [a2]
              else date_list.map (fun d => (d, Verdict.blank)) := rfl
      by_cases hc : is_connection_error msg = true
      · rw [hstep, if_pos hc]
        exact (runAttempts_single date_list a2).1
      · rw [hstep, if_neg hc]
        exact map_fst_pair _ _
  · intro h1 h2
    show runAttempts date_list [a1, a2] = date_list.map (fun d => (d, Verdict.blank))
    cases a1 with
    | pageOk dom logs => simp [attemptRaises] at h1
    | titleBlocked => simp [attemptRaises] at h1
    | raisedWebDriver msg =>
      have hred : runAttempts date_list [AttemptFate.raisedWebDriver msg, a2]
          = runAttempts date_list [a2] := rfl
      rw [hred]
      exact (runAttempts_single date_list a2).2 h2
    | raisedOther msg =>
      have hstep : runAttempts date_list [AttemptFate.raisedOther msg, a2]
          = if is_connection_error msg = true
              then runAttempts date_list [a2]
              else date_list.map (fun d => (d, Verdict.blank)) := rfl
      by_cases hc : is_connection_error msg = true
      · rw [hstep, if_pos hc]
        exact (runAttempts_single date_list a2).2 h2
      · rw [hstep, if_neg hc]

/-- Witness for `check_multiple_dates_total`: both attempts raise and every
date comes back `blank`. -/
theorem check_multiple_dates_total_witness :
    (["2026-02-14", "2026-02-15"] : List String) ≠ []
    ∧ attemptRaises (AttemptFate.raisedWebDriver "connection refused") = true
    ∧ attemptRaises (AttemptFate.raisedOther "boom") = true
    ∧ check_multiple_dates "https://reservenski.parkbrightonresort.com/select-parking"
        ["2026-02-14", "2026-02-15"]
        (AttemptFate.raisedWebDriver "connection refused")
        (AttemptFate.raisedOther "boom")
        = [("2026-02-14", Verdict.blank), ("2026-02-15", Verdict.blank)] :=
  ⟨by decide, by decide, by decide, by
    have h := (check_multiple_dates_total
      "https://reservenski.parkbrightonresort.com/select-parking"
      ["2026-02-14", "2026-02-15"]
      (AttemptFate.raisedWebDriver "connection refused")
      (AttemptFate.raisedOther "boom") (by decide)).2.2 (by decide) (by decide)
    simpa using h⟩

/-! ## The per-job notification step (claims C1, C3, C6) -/

theorem find?_setIn {α : Type} {l : List (Nat × α)} {k : Nat} {q : Nat × α}
    (h : l.find? (fun p => p.1 == k) = some q) (v : α) :
    (setIn l k v).find? (fun p => p.1 == k) = some (k, v) := by
  induction l with
  | nil => simp [List.find?] at h
  | cons a t ih =>
    by_cases hk : a.1 = k
    · simp [setIn, List.find?, hk]
    · have hpred : (a.1 == k) = false := by simp [hk]
      rw [List.find?_cons_of_neg _ (by simp [hpred])] at h
      show ((if a.1 = k then (k, v) else a) :: setIn t k v).find? (fun p => p.1 == k)
          = some (k, v)
      rw [if_neg hk, List.find?_cons_of_neg _ (by simp [hpred])]
      exact ih h

theorem find?_of_nodup {α : Type} {l : List (Nat × α)} {k : Nat} {v : α}
    (hnd : (l.map Prod.fst).Nodup) (hmem : (k, v) ∈ l) :
    l.find? (fun p => p.1 == k) = some (k, v) := by
  induction l with
  | nil => cases hmem
  | cons a t ih =>
    rcases List.mem_cons.mp hmem with rfl | hmem2
    · exact List.find?_cons_of_pos _ (by simp)
    · rw [List.map_cons] at hnd
      have hnd' := List.nodup_cons.mp hnd
      by_cases hk : a.1 = k
      · exfalso
        apply hnd'.1
        rw [hk]
        exact List.mem_map.mpr ⟨(k, v), hmem2, rfl⟩
      · rw [List.find?_cons_of_neg _ (by simp [hk])]
        exact ih hnd'.2 hmem2

/-- C1: for every subscription on which an AVAILABLE (`green`) verdict is
dispatched, the engine records the Notification row strictly before the SMTP
send attempt (the event trace starts `recorded_notification, attempted_send`),
and the subscription moves ACTIVE → NOTIFIED iff the send returned `True`;
when the send returns `False` or raises, the subscription remains ACTIVE. -/
theorem notify_transactional_order (now : Nat) (db : EngineDB) (job : JobInfo)
    (send : SendOutcome) (hact : statusOf db job.job_id = some JobStatus.active) :
    (∃ rest, (process_job_result now db job Verdict.green send).2
        = EngineEvent.recorded_notification job.job_id
          :: EngineEvent.attempted_send job.job_id :: rest)
    ∧ (statusOf (process_job_result now db job Verdict.green send).1 job.job_id
          = some JobStatus.notified ↔ send = SendOutcome.success)
    ∧ (send ≠ SendOutcome.success →
        statusOf (process_job_result now db job Verdict.green send).1 job.job_id
          = some JobStatus.active) := by
  obtain ⟨q, hq, hq2⟩ := Option.map_eq_some'.mp hact
  cases send with
  | success =>
    refine ⟨⟨[EngineEvent.marked_notified job.job_id], rfl⟩, ?_, ?_⟩
    · have hset : statusOf (process_job_result now db job Verdict.green
          SendOutcome.success).1 job.job_id = some JobStatus.notified := by
        show ((setIn db.job_status job.job_id JobStatus.notified).find?
            (fun p => p.1 == job.job_id)).map Prod.snd = some JobStatus.notified
        rw [find?_setIn hq JobStatus.notified]
        rfl
      simp [hset]
    · intro hne
      exact absurd rfl hne
  | returnedFalse =>
    refine ⟨⟨[EngineEvent.logged_send_failure job.job_id], rfl⟩, ?_, fun _ => hact⟩
    have hsame : statusOf (process_job_result now db job Verdict.green
        SendOutcome.returnedFalse).1 job.job_id = some JobStatus.active := hact
    simp [hsame]
  | raised =>
    refine ⟨⟨[EngineEvent.logged_send_failure job.job_id], rfl⟩, ?_, fun _ => hact⟩
    have hsame : statusOf (process_job_result now db job Verdict.green
        SendOutcome.raised).1 job.job_id = some JobStatus.active := hact
    simp [hsame]

/-- Witness for `notify_transactional_order` on a concrete active job. -/
theorem notify_transactional_order_witness :
    statusOf exDB0 1 = some JobStatus.active
    ∧ (statusOf (process_job_result 10 exDB0 exJob Verdict.green SendOutcome.success).1 1
          = some JobStatus.notified ↔ SendOutcome.success = SendOutcome.success) :=
  ⟨by decide,
   (notify_transactional_order 10 exDB0 exJob SendOutcome.success (by decide)).2.1⟩

/-- C3 counterexample: with a notification for job 1 recorded one minute ago
(well inside the default 30-minute window, as `check_recent_notification`
itself reports), a fresh `green` detection on the still-ACTIVE job attempts a
new send anyway and appends a second Notification row for the same
subscription, 1 minute after the first — the engine never consults the
30-minute soft debounce. -/
theorem soft_debounce_missing_cex :
    check_recent_notification exDBrecent 71 1 30 = true
    ∧ EngineEvent.attempted_send 1
        ∈ (process_job_result 71 exDBrecent exJob Verdict.green SendOutcome.success).2
    ∧ ((process_job_result 71 exDBrecent exJob Verdict.green
          SendOutcome.success).1.notifications.filter (fun n => n.job_id == 1)).length = 2
    ∧ (∀ n ∈ (process_job_result 71 exDBrecent exJob Verdict.green
          SendOutcome.success).1.notifications, 71 - n.sent_at ≤ 30) := by
  decide

/-- C3 (amended): the engine's only debounce is the ACTIVE-state gate.  The
per-job step's behavior (its event trace, including whether a send is
attempted) never consults the Notification log — it is invariant under
replacing the log — a `green` verdict always appends a fresh Notification row,
and only rows with status `'active'` are handed to the tick at all.
`check_recent_notification` (default window 30 minutes) exists in the store
but is never invoked before sending. -/
theorem state_gate_only_debounce (now : Nat) (db : EngineDB)
    (ns : List NotificationRec) (job : JobInfo) (result : Verdict)
    (send : SendOutcome) :
    ((process_job_result now { db with notifications := ns } job result send).2
        = (process_job_result now db job result send).2)
    ∧ (result = Verdict.green →
        (process_job_result now db job result send).1.notifications
          = db.notifications
            ++ [⟨job.job_id, job.user_id, job.resort_name, job.target_date, now, "sent"⟩])
    ∧ ((db.job_status.map Prod.fst).Nodup →
        ∀ jid ∈ get_active_monitoring_jobs db, statusOf db jid = some JobStatus.active) := by
  refine ⟨?_, ?_, ?_⟩
  · cases result <;> cases send <;> rfl
  · intro hres
    subst hres
    cases send <;> rfl
  · intro hnd jid hjid
    obtain ⟨p, hpmem, hpfst⟩ := List.mem_map.mp hjid
    have hpf := List.mem_filter.mp hpmem
    have hst : p.2 = JobStatus.active := by
      have := hpf.2
      simpa using this
    have hp : p = (jid, JobStatus.active) := by
      cases p
      simp only [Prod.fst] at hpfst
      simp only [Prod.snd] at hst
      rw [hpfst, hst]
    rw [hp] at hpf
    show (db.job_status.find? (fun p => p.1 == jid)).map Prod.snd
        = some JobStatus.active
    rw [find?_of_nodup hnd hpf.1]
    rfl

/-- Witness for `state_gate_only_debounce` on the concrete store. -/
theorem state_gate_only_debounce_witness :
    (exDBrecent.job_status.map Prod.fst).Nodup
    ∧ (∀ jid ∈ get_active_monitoring_jobs exDBrecent,
        statusOf exDBrecent jid = some JobStatus.active)
    ∧ (Verdict.green = Verdict.green)
    ∧ (process_job_result 71 exDBrecent exJob Verdict.green SendOutcome.raised).1.notifications
        = exDBrecent.notifications ++ [⟨1, 7, "Brighton", "2026-02-14", 71, "sent"⟩] :=
  ⟨by decide,
   (state_gate_only_debounce 71 exDBrecent [] exJob Verdict.green SendOutcome.raised).2.2
     (by decide),
   rfl,
   (state_gate_only_debounce 71 exDBrecent [] exJob Verdict.green SendOutcome.raised).2.1
     rfl⟩

/-- C6 counterexample: when the SMTP send raises, the Notification row that
was recorded pre-send carries `delivery_status = "sent"`, not `"failed"` —
`create_notification` hard-codes `'sent'` and nothing updates it on failure
(the subscription does remain ACTIVE). -/
theorem send_failure_delivery_status_cex :
    ((process_job_result 71 exDB0 exJob Verdict.green SendOutcome.raised).1.notifications.map
        (fun n => n.delivery_status)) = ["sent"]
    ∧ ¬ (∃ n ∈ (process_job_result 71 exDB0 exJob Verdict.green
          SendOutcome.raised).1.notifications, n.delivery_status = "failed")
    ∧ statusOf (process_job_result 71 exDB0 exJob Verdict.green SendOutcome.raised).1 1
        = some JobStatus.active := by
  decide

/-- C6 (amended): every Notification row the engine appends has
`delivery_status = "sent"` regardless of how the SMTP send ends; on a send
failure the subscription remains ACTIVE (only the row's status never becomes
`"failed"`). -/
theorem notification_status_always_sent (now : Nat) (db : EngineDB) (job : JobInfo)
    (send : SendOutcome) (hact : statusOf db job.job_id = some JobStatus.active) :
    (∀ n ∈ (process_job_result now db job Verdict.green send).1.notifications,
        n ∈ db.notifications ∨ n.delivery_status = "sent")
    ∧ (send ≠ SendOutcome.success →
        statusOf (process_job_result now db job Verdict.green send).1 job.job_id
          = some JobStatus.active) := by
  constructor
  · intro n hn
    have hns : (process_job_result now db job Verdict.green send).1.notifications
        = db.notifications
          ++ [⟨job.job_id, job.user_id, job.resort_name, job.target_date, now, "sent"⟩] := by
      cases send <;> rfl
    rw [hns] at hn
    rcases List.mem_append.mp hn with h1 | h2
    · exact Or.inl h1
    · rcases List.mem_singleton.mp h2 with rfl
      exact Or.inr rfl
  · intro hne
    cases send with
    | success => exact absurd rfl hne
    | returnedFalse => exact hact
    | raised => exact hact

/-- Witness for `notification_status_always_sent` on a raised send. -/
theorem notification_status_always_sent_witness :
    statusOf exDB0 1 = some JobStatus.active
    ∧ SendOutcome.raised ≠ SendOutcome.success
    ∧ statusOf (process_job_result 10 exDB0 exJob Verdict.green SendOutcome.raised).1 1
        = some JobStatus.active :=
  ⟨by decide, by decide,
   (notification_status_always_sent 10 exDB0 exJob SendOutcome.raised (by decide)).2
     (by decide)⟩

/-! ## The driver pool (claims C4, C5) -/

theorem lookupKey_removeKey {α : Type} (l : List (String × α)) (k : String) :
    lookupKey (removeKey l k) k = none := by
  induction l with
  | nil => rfl
  | cons a t ih =>
    show lookupKey (List.filter (fun p => !(p.1 == k)) (a :: t)) k = none
    rw [List.filter_cons]
    by_cases hk : (a.1 == k) = true
    · rw [hk]
      simpa using ih
    · have hk' : (a.1 == k) = false := by simpa using hk
      rw [hk']
      simp only [Bool.not_false, if_true]
      show ((a :: List.filter (fun p => !(p.1 == k)) t).find?
          (fun p => p.1 == k)).map Prod.snd = none
      rw [List.find?_cons_of_neg _ (by simp [hk'])]
      exact ih

/-- C4 counterexample: acquiring a driver for one resort and then for a
different resort hands back the *same* driver (stored under the fixed key
`shared_driver`), so a session is shared across targets; and after both
acquisitions the use-count table is still empty — no per-session use counter
is tracked, so the `_MAX_DRIVER_USES = 3` bound can never trigger. -/
theorem session_shared_across_targets_cex :
    (get_or_create_driver emptyPool
        "https://reservenski.parkbrightonresort.com/select-parking" true "profile_aaaa").1
      = (0, true)
    ∧ (get_or_create_driver
        (get_or_create_driver emptyPool
          "https://reservenski.parkbrightonresort.com/select-parking" true "profile_aaaa").2
        "https://reserve.altaparking.com/select-parking" true "profile_bbbb").1
      = (0, false)
    ∧ (get_or_create_driver
        (get_or_create_driver emptyPool
          "https://reservenski.parkbrightonresort.com/select-parking" true "profile_aaaa").2
        "https://reserve.altaparking.com/select-parking" true "profile_bbbb").2.driver_use_count
      = [] := by
  decide

/-- C4 (amended): the pool keeps a single persistent session under the fixed
key `shared_driver` and reuses it for every target as long as its liveness
probe passes; acquisition never touches the use-count table, and any driver
entry the pool ever adds sits under `shared_driver`. -/
theorem shared_session_pool_spec (st : PoolState) (url : String) (alive : Bool)
    (p : String) (d : Nat) :
    (lookupKey st.resort_drivers SHARED_KEY = some d →
        get_or_create_driver st url true p = ((d, false), st))
    ∧ ((get_or_create_driver st url alive p).2.driver_use_count = st.driver_use_count)
    ∧ (∀ k d', (k, d') ∈ (get_or_create_driver st url alive p).2.resort_drivers →
        k = SHARED_KEY ∨ (k, d') ∈ st.resort_drivers) := by
  refine ⟨?_, ?_, ?_⟩
  · intro h
    unfold get_or_create_driver
    rw [h]
    rfl
  · unfold get_or_create_driver
    rcases hl : lookupKey st.resort_drivers SHARED_KEY with _ | dd
    · rfl
    · cases alive <;> rfl
  · intro k d' hmem
    unfold get_or_create_driver at hmem
    rcases hl : lookupKey st.resort_drivers SHARED_KEY with _ | dd
    · rw [hl] at hmem
      rcases List.mem_cons.mp hmem with heq | hmem2
      · exact Or.inl (congrArg Prod.fst heq)
      · exact Or.inr hmem2
    · rw [hl] at hmem
      cases alive with
      | true => exact Or.inr hmem
      | false =>
        rcases List.mem_cons.mp hmem with heq | hmem2
        · exact Or.inl (congrArg Prod.fst heq)
        · exact Or.inr (List.mem_filter.mp hmem2).1

/-- Witness for `shared_session_pool_spec`: the live shared driver is handed
out unchanged for a resort it was never created for. -/
theorem shared_session_pool_spec_witness :
    lookupKey poolWithShared.resort_drivers SHARED_KEY = some 5
    ∧ get_or_create_driver poolWithShared
        "https://reserve.altaparking.com/select-parking" true "profile_dddd"
      = ((5, false), poolWithShared) :=
  ⟨by decide,
   (shared_session_pool_spec poolWithShared
      "https://reserve.altaparking.com/select-parking" true "profile_dddd" 5).1
     (by decide)⟩

/-- C5 counterexample: with the shared driver alive, the blocked-resort
reaction `cleanup_driver(resort_url, clear_profile=True)` returns without
quitting anything and without removing any profile directory — the driver is
still pooled and the persisted profile survives into the next acquisition. -/
theorem blocked_eviction_skipped_cex :
    handle_blocked_resort poolWithShared
        "https://reservenski.parkbrightonresort.com/select-parking" = poolWithShared
    ∧ lookupKey (handle_blocked_resort poolWithShared
        "https://reservenski.parkbrightonresort.com/select-parking").resort_drivers
        SHARED_KEY = some 5
    ∧ (handle_blocked_resort poolWithShared
        "https://reservenski.parkbrightonresort.com/select-parking").profiles
      = ["profile_cccc"] := by
  decide

/-- C5 (amended): whenever a shared driver exists, `cleanup_driver` on a
resort URL is the identity — the BLOCKED reaction evicts nothing and scrubs
nothing; only when no shared driver exists does the call drop the URL-keyed
driver and erase the profile directory derived from the resort URL. -/
theorem cleanup_driver_shared_noop (st : PoolState) (url : String) (cp : Bool) :
    (lookupKey st.resort_drivers SHARED_KEY ≠ none → url ≠ SHARED_KEY →
        cleanup_driver st url cp = st ∧ handle_blocked_resort st url = st)
    ∧ (lookupKey st.resort_drivers SHARED_KEY = none →
        (cleanup_driver st url true).profiles = st.profiles.erase (profile_dir_for url)
        ∧ lookupKey (cleanup_driver st url true).resort_drivers url = none) := by
  constructor
  · intro h1 h2
    constructor
    · unfold cleanup_driver
      rw [if_pos ⟨h1, h2⟩]
    · unfold handle_blocked_resort cleanup_driver
      rw [if_pos ⟨h1, h2⟩]
  · intro h0
    have hcond : ¬ (lookupKey st.resort_drivers SHARED_KEY ≠ none ∧ url ≠ SHARED_KEY) :=
      fun hand => hand.1 h0
    by_cases hu : lookupKey st.resort_drivers url ≠ none
    · constructor
      · unfold cleanup_driver
        rw [if_neg hcond, if_pos hu, if_pos rfl]
      · unfold cleanup_driver
        rw [if_neg hcond, if_pos hu, if_pos rfl]
        exact lookupKey_removeKey st.resort_drivers url
    · have hu' : lookupKey st.resort_drivers url = none := not_ne_iff.mp hu
      constructor
      · unfold cleanup_driver
        rw [if_neg hcond, if_neg hu, if_pos rfl]
      · unfold cleanup_driver
        rw [if_neg hcond, if_neg hu, if_pos rfl]
        exact hu'

/-- Witness for `cleanup_driver_shared_noop`: the no-op branch on the concrete
pool, and the scrub branch on the empty pool. -/
theorem cleanup_driver_shared_noop_witness :
    lookupKey poolWithShared.resort_drivers SHARED_KEY ≠ none
    ∧ "https://reservenski.parkbrightonresort.com/select-parking" ≠ SHARED_KEY
    ∧ cleanup_driver poolWithShared
        "https://reservenski.parkbrightonresort.com/select-parking" true = poolWithShared
    ∧ lookupKey emptyPool.resort_drivers SHARED_KEY = none
    ∧ (cleanup_driver emptyPool "https://x" true).profiles
        = emptyPool.profiles.erase (profile_dir_for "https://x") :=
  ⟨by decide, by decide,
   ((cleanup_driver_shared_noop poolWithShared
      "https://reservenski.parkbrightonresort.com/select-parking" true).1
     (by decide) (by decide)).1,
   by decide,
   ((cleanup_driver_shared_noop emptyPool "https://x" true).2 (by decide)).1⟩

/-! ## Signed resume/stop links (claim C7) -/

/-- C7: under the symbolic MAC model, the notifier's RESUME token (salt
`continue-monitoring`) never verifies under the STOP salt
(`stop-monitoring`) and vice versa — each link route renders the invalid
page for the other intent's token — and a token older than the 7-day
`max_age` verifies as EXPIRED (the expired page), never as success. -/
theorem token_salts_and_expiry (job_id issued now : Nat) (db : EngineDB) :
    (loadsToken "stop-monitoring" SEVEN_DAYS now
        (send_notification_email_tokens job_id issued).1 = LoadResult.badSignature
      ∧ loadsToken "continue-monitoring" SEVEN_DAYS now
          (send_notification_email_tokens job_id issued).2 = LoadResult.badSignature)
    ∧ (stop_monitoring db now (send_notification_email_tokens job_id issued).1
          = (RouteOutcome.invalidPage, db)
      ∧ continue_monitoring db now (send_notification_email_tokens job_id issued).2
          = (RouteOutcome.invalidPage, db))
    ∧ (SEVEN_DAYS < now - issued →
        (loadsToken "continue-monitoring" SEVEN_DAYS now
            (send_notification_email_tokens job_id issued).1 = LoadResult.expired
        ∧ loadsToken "stop-monitoring" SEVEN_DAYS now
            (send_notification_email_tokens job_id issued).2 = LoadResult.expired
        ∧ continue_monitoring db now (send_notification_email_tokens job_id issued).1
            = (RouteOutcome.expiredPage, db)
        ∧ stop_monitoring db now (send_notification_email_tokens job_id issued).2
            = (RouteOutcome.expiredPage, db))) := by
  have hbad1 : loadsToken "stop-monitoring" SEVEN_DAYS now
      (send_notification_email_tokens job_id issued).1 = LoadResult.badSignature := by
    unfold loadsToken send_notification_email_tokens dumpsToken
    rw [if_pos (show ¬("continue-monitoring" : String) = "stop-monitoring" from by decide)]
  have hbad2 : loadsToken "continue-monitoring" SEVEN_DAYS now
      (send_notification_email_tokens job_id issued).2 = LoadResult.badSignature := by
    unfold loadsToken send_notification_email_tokens dumpsToken
    rw [if_pos (show ¬("stop-monitoring" : String) = "continue-monitoring" from by decide)]
  refine ⟨⟨hbad1, hbad2⟩, ⟨?_, ?_⟩, ?_⟩
  · unfold stop_monitoring
    rw [hbad1]
  · unfold continue_monitoring
    rw [hbad2]
  · intro hexp
    have hexp1 : loadsToken "continue-monitoring" SEVEN_DAYS now
        (send_notification_email_tokens job_id issued).1 = LoadResult.expired := by
      unfold loadsToken send_notification_email_tokens dumpsToken
      rw [if_neg (show ¬¬("continue-monitoring" : String) = "continue-monitoring" from
        by simp), if_pos hexp]
    have hexp2 : loadsToken "stop-monitoring" SEVEN_DAYS now
        (send_notification_email_tokens job_id issued).2 = LoadResult.expired := by
      unfold loadsToken send_notification_email_tokens dumpsToken
      rw [if_neg (show ¬¬("stop-monitoring" : String) = "stop-monitoring" from
        by simp), if_pos hexp]
    refine ⟨hexp1, hexp2, ?_, ?_⟩
    · unfold continue_monitoring
      rw [hexp1]
    · unfold stop_monitoring
      rw [hexp2]

/-- Witness for `token_salts_and_expiry`: a token one second past its 7-day
expiry comes back EXPIRED. -/
theorem token_salts_and_expiry_witness :
    SEVEN_DAYS < (SEVEN_DAYS + 1) - 0
    ∧ loadsToken "continue-monitoring" SEVEN_DAYS (SEVEN_DAYS + 1)
        (send_notification_email_tokens 1 0).1 = LoadResult.expired :=
  ⟨by decide,
   ((token_salts_and_expiry 1 0 (SEVEN_DAYS + 1) exDB0).2.2 (by decide)).1⟩

end ParkingMonitor
